import Mathlib

/-!
# Verification of the `cobraflags` integration layer

Shallow embedding of the go-extras/cobraflags repository: a thin layer
that binds spf13/cobra command-line flags to the spf13/viper layered
configuration source.  Pure functions of the Go source are translated to
Lean functions; the stateful parts (the per-flag one-shot bind latch, the
per-command initialization latch, the tree walk with its visited set) are
translated to explicit state passing.  Go strings are Lean `String`s,
Go machine integers are `Nat` with explicit `% 2 ^ w` where overflow
matters, and Go `error` values are `Option Err` with `Err := String`.
-/

namespace Cobraflags

/-- Go `error` values: `none` is Go's `nil` error, `some e` an error
whose message is `e`. -/
abbrev Err := String

/-! ## Key resolution (`FlagBase.getViperKey`)

From the source (`getViperKey`): return `ViperKey` when non-empty,
otherwise fall back to `Name`. -/

/-- Embedding of `FlagBase.getViperKey`: `if s.ViperKey != "" { return
s.ViperKey }; return s.Name`. -/
def getViperKey (viperKey name : String) : String :=
  if viperKey ≠ "" then viperKey else name

/-! ## Environment-variable name derivation (`PresetRequiredFlags`)

The source computes
`strings.ToUpper(envPrefix + "_" + strings.ReplaceAll(strings.ReplaceAll(viperKey, ".", "_"), "-", "_"))`.
`strings.ReplaceAll` with a one-ASCII-character pattern and replacement
is character-by-character replacement, and `strings.ToUpper` on ASCII
input is character-by-character upper-casing, so both are embedded as
maps over the string's characters. -/

/-- Embedding of Go `strings.ReplaceAll(s, old, new)` for the
single-character patterns used by the source (`"."`→`"_"`,
`"-"`→`"_"`): replace every occurrence of `old` by `new`. -/
def goReplaceAllChar (s : String) (old new : Char) : String :=
  String.mk (s.data.map (fun c => if c = old then new else c))

/-- Embedding of Go `strings.ToUpper` (ASCII): upper-case every
character. -/
def goToUpper (s : String) : String :=
  String.mk (s.data.map Char.toUpper)

/-- Embedding of the environment-variable name computation in
`PresetRequiredFlags` (src/cobrainit.go line 132). -/
def envVarName (pfx viperKey : String) : String :=
  goToUpper (pfx ++ "_" ++
    goReplaceAllChar (goReplaceAllChar viperKey '.' '_') '-' '_')

/-- The environment-variable naming contract as the specification words
it: upper-casing of `P ++ "_" ++ K` after every `'.'` and every `'-'` in
`K` has been replaced by `'_'` (a single simultaneous replacement pass).
Stated separately from `envVarName` so the two can be compared. -/
def specEnvVarName (p k : String) : String :=
  goToUpper (p ++ "_" ++
    String.mk (k.data.map (fun c => if c = '.' ∨ c = '-' then '_' else c)))

/-! ## The bounded-integer flag (`Uint8Flag`)

`GetUint8` reads `viper.GetUint16(viperKey)` (a `uint16`, embedded as a
`Nat < 2 ^ 16`) and passes it through the external cast utility. -/

/-- Modelled from the external spf13/cast library (a dependency of
src/flag_uint8.go, not vendored in this repository): `cast.ToUint8E` on
a `uint16` argument executes `return uint8(s), nil`, Go's integer
conversion, which keeps the low 8 bits (value modulo `2 ^ 8`) and never
errors on unsigned input; the error-swallowing wrapper `cast.ToUint8`
therefore returns exactly that converted value. -/
def cast_ToUint8 (v : Nat) : Nat :=
  v % 2 ^ 8

/-- Embedding of `Uint8Flag.GetUint8` (src/flag_uint8.go), applied to
the value `wide` obtained from the flag's underlying `uint16`
representation (`viper.GetUint16`). -/
def Uint8Flag_GetUint8 (wide : Nat) : Nat :=
  cast_ToUint8 wide

/-! ## Validation (`FlagBase.validate`, `GetXE`)

`FlagBase[T]` holds two optional hooks, `ValidateFunc : func(T) error`
and `Validator` (whose `Validate` method is likewise a value-to-error
function once the dynamic type check passes).  A hook is embedded as
`T → Option Err`; an unset hook is `none`. -/

/-- The two optional validation hooks of `FlagBase[T]`. -/
structure FlagCfg (T : Type) where
  validateFn : Option (T → Option Err)
  validator : Option (T → Option Err)

/-- Second half of `FlagBase.validate`: the `s.Validator != nil` block.
On a validator error the named return `result` still holds the zero
value of `T`, so `(zero, some e)` is returned. -/
def runValidator {T : Type} (zero : T) (cfg : FlagCfg T) (v : T) :
    T × Option Err :=
  match cfg.validator with
  | some g =>
    match g v with
    | some e => (zero, some e)
    | none => (v, none)
  | none => (v, none)

/-- Embedding of `FlagBase.validate` (src/unnamed/part_002): run
`ValidateFunc` when set and return `(zero, err)` on its error; otherwise
fall through to the `Validator` block; when nothing fails return
`(v, nil)`. -/
def validate {T : Type} (zero : T) (cfg : FlagCfg T) (v : T) :
    T × Option Err :=
  match cfg.validateFn with
  | some f =>
    match f v with
    | some e => (zero, some e)
    | none => runValidator zero cfg v
  | none => runValidator zero cfg v

/-- Whether the control flow of `FlagBase.validate` reaches a call of
`s.Validator.Validate`: it does exactly when `Validator` is set and
`ValidateFunc` did not already return an error.  Read off the source's
straight-line control flow. -/
def validatorConsulted {T : Type} (cfg : FlagCfg T) (v : T) : Bool :=
  match cfg.validateFn with
  | some f =>
    match f v with
    | some _ => false
    | none => cfg.validator.isSome
  | none => cfg.validator.isSome

/-- Embedding of the shared body of the E-suffixed getters
(`GetStringE`, `GetBoolE`, `GetIntE`, `GetUint8E`, `GetStringSliceE`):
read `v` from viper, then `if result, err := validate(v); err != nil {
return result, err }; return v, nil`. -/
def getE {T : Type} (zero : T) (cfg : FlagCfg T) (viperValue : T) :
    T × Option Err :=
  match validate zero cfg viperValue with
  | (result, some err) => (result, some err)
  | (_, none) => (viperValue, none)

/-- Embedding of the shared body of the plain getters (`GetString`,
`GetBool`, `GetInt`, `GetUint8`, `GetStringSlice`): read from viper and
return, calling no validation hook (the receiver's `cfg` is in scope,
as in Go, but unused). -/
def getPlain {T : Type} (cfg : FlagCfg T) (viperValue : T) : T :=
  viperValue

/-- `StringFlag.GetStringE` (src/flag_string.go): the generic E-getter
at `T := String` with zero value `""`. -/
def StringFlag_GetStringE (cfg : FlagCfg String) (viperValue : String) :
    String × Option Err :=
  getE "" cfg viperValue

/-- `Uint8Flag.GetUint8E` (src/flag_uint8.go): narrow the `uint16` read
from viper through `cast.ToUint8`, then validate; zero value `0`. -/
def Uint8Flag_GetUint8E (cfg : FlagCfg Nat) (wide : Nat) :
    Nat × Option Err :=
  getE 0 cfg (cast_ToUint8 wide)

/-! ## The per-FlagSpec one-shot bind latch (`bindOnce sync.Once`)

Every getter of every flag type starts with
`s.bindOnce.Do(func() { noError(viper.BindPFlag(viperKey, s.flag)) })`.
The latch and the number of executed binds are made explicit state. -/

/-- The `bindOnce sync.Once` latch of one `FlagBase` instance, together
with a counter of how many times the guarded `viper.BindPFlag` call has
actually executed. -/
structure BindState where
  bound : Bool
  bindCount : Nat
  deriving DecidableEq

/-- `sync.Once.Do`: run the guarded bind exactly when the latch has not
fired yet, and latch. -/
def bindOnceDo (st : BindState) : BindState :=
  if st.bound then st
  else { bound := true, bindCount := st.bindCount + 1 }

/-- The latch step performed by one getter call.  `isE` distinguishes an
E-suffixed getter (`true`) from a plain one (`false`); both run the very
same `bindOnce.Do` block, so the kind does not influence the latch. -/
def getterBindStep (isE : Bool) (st : BindState) : BindState :=
  bindOnceDo st

/-- The latch state after a sequence of getter calls (each list entry
one call, plain or E-suffixed). -/
def getterSeq (ks : List Bool) (st : BindState) : BindState :=
  ks.foldl (fun s k => getterBindStep k s) st

/-! ## `noError` and the bind failure path

`noError(err)` logs and panics when `err != nil` (the slog call is an
I/O effect outside this embedding; the abort is modelled by an explicit
panic outcome). -/

/-- Identity of a registered pflag handle. -/
abbrev Handle := Nat

/-- Result of running a Go function that may panic. -/
inductive Outcome (α : Type) where
  | ok : α → Outcome α
  | panicked : Err → Outcome α
  deriving DecidableEq

/-- Modelled from the spec: the external configuration source's
bind-flag operation (`viper.BindPFlag`), which is absent from src/ and
per §4.3/§7 fails exactly when handed a nil flag handle (the state a
FlagSpec is in when a getter runs before `Register`). -/
def viper_BindPFlag (key : String) (flag : Option Handle) : Option Err :=
  match flag with
  | none => some ("flag for " ++ key ++ " is nil")
  | some _ => none

/-- The mutable pieces of one `StringFlag` visible to its getters:
the `registeredHandle` (`none` before `Register`), the `bindOnce` latch,
and the value the configuration source currently reports for the flag's
effective key. -/
structure StringFlagState where
  flag : Option Handle
  bound : Bool
  viperValue : String

/-- Embedding of `StringFlag.GetString` with the panic path explicit:
if the latch is fresh, `viper.BindPFlag` runs inside `bindOnce.Do`; a
bind error goes through `noError`, which panics (and `sync.Once` marks
the latch done even then, via its deferred store); otherwise the viper
value is returned. -/
def StringFlag_GetString_run (st : StringFlagState) (viperKey : String) :
    Outcome String × StringFlagState :=
  if st.bound then (.ok st.viperValue, st)
  else
    match viper_BindPFlag viperKey st.flag with
    | some e => (.panicked e, { st with bound := true })
    | none => (.ok st.viperValue, { st with bound := true })

/-- Embedding of `StringFlag.GetStringE` with the panic path explicit:
same one-shot bind, then read and validate. -/
def StringFlag_GetStringE_run (cfg : FlagCfg String)
    (st : StringFlagState) (viperKey : String) :
    Outcome (String × Option Err) × StringFlagState :=
  if st.bound then (.ok (getE "" cfg st.viperValue), st)
  else
    match viper_BindPFlag viperKey st.flag with
    | some e => (.panicked e, { st with bound := true })
    | none => (.ok (getE "" cfg st.viperValue), { st with bound := true })

/-! ## The per-command initialization latch (`initOnceMap`)

`CobraOnInitialize` keeps one `sync.Once` per `*cobra.Command` in the
mutex-guarded `initOnceMap`; the wrapped help function and the
`cobra.OnInitialize` hook both merely fire the same `cobraInit` closure,
which runs the initialization body through that per-command latch. -/

/-- Identity of a root `*cobra.Command`. -/
abbrev CmdId := Nat

/-- The `initOnceMap` registry: per command, whether its latch has fired
and how many times its initialization body has actually run. -/
structure InitRegistry where
  done : CmdId → Bool
  runCount : CmdId → Nat

/-- The registry before any initialization: latches absent/fresh. -/
def freshRegistry : InitRegistry :=
  { done := fun _ => false, runCount := fun _ => 0 }

/-- One firing of the `cobraInit` closure for command `c` (from the
wrapped help path or from the `cobra.OnInitialize` hook):
`initOnce.Do(body)` runs the body iff the command's latch is fresh. -/
def cobraInitFire (c : CmdId) (st : InitRegistry) : InitRegistry :=
  if st.done c then st
  else
    { done := fun x => if x = c then true else st.done x,
      runCount := fun x => if x = c then st.runCount x + 1 else st.runCount x }

/-- The registry after an arbitrary sequence of trigger firings (help
renders, on-initialize hook runs, repeated `CobraOnInitialize`
registrations — all reduce to firings of per-command latches). -/
def fireAll (l : List CmdId) (st : InitRegistry) : InitRegistry :=
  l.foldl (fun s c => cobraInitFire c s) st

/-! ## Flag registration (`Register`, `RegisterMap`) -/

/-- The declaration-time fields of a FlagSpec that `Register` reads. -/
structure FlagSpec where
  name : String
  viperKey : String
  persistent : Bool
  deriving DecidableEq

/-- A command's flag bookkeeping: the regular and the persistent flag
set, each a list of (flag name, viper-key metadata) entries in
registration order. -/
structure CmdState where
  localFlags : List (String × String)
  persistentFlags : List (String × String)
  deriving DecidableEq

/-- Embedding of the `Register(cmd)` shape shared by every flag type:
pick the persistent or the regular flag set from the `Persistent` field,
add the flag under its own `Name`, and annotate the handle with the
resolved viper key. -/
def registerFlag (c : CmdState) (s : FlagSpec) : CmdState :=
  if s.persistent then
    { c with persistentFlags :=
        c.persistentFlags ++ [(s.name, getViperKey s.viperKey s.name)] }
  else
    { c with localFlags :=
        c.localFlags ++ [(s.name, getViperKey s.viperKey s.name)] }

/-- Embedding of `Register(cmd, flags ...Flag)`: register each flag in
turn. -/
def registerFlags (c : CmdState) (l : List FlagSpec) : CmdState :=
  l.foldl registerFlag c

/-- Embedding of `RegisterMap(cmd, flags map[string]Flag)`:
`for _, flag := range flags { flag.Register(cmd) }` — iterate the
entries (the map embedded as its entry list, in some order) and register
each value; the key is never read. -/
def registerMap (c : CmdState) (m : List (String × FlagSpec)) : CmdState :=
  m.foldl (fun acc kv => registerFlag acc kv.2) c

/-! ## The layered configuration read (value precedence)

`viper` itself is an external collaborator; src/ only binds flags to it
and reads through it. -/

/-- The process environment: variable name/value pairs. -/
def lookupEnv (env : List (String × String)) (name : String) :
    Option String :=
  (env.find? (fun kv => kv.1 = name)).map (fun kv => kv.2)

/-- What the configuration source knows about one bound flag. -/
structure ConfigBinding where
  flagChanged : Bool
  flagValue : String
  defaultValue : String

/-- Modelled from the spec and the repository's tests: the external
layered configuration source's string read for a key bound to a flag
(absent from src/).  Per §2/§6/§8 the precedence is command line >
environment > default: a flag explicitly changed on the command line
wins; otherwise the environment variable derived by the naming contract
(automatic env lookup with the configured prefix and replacer) wins;
otherwise the flag's default.  An environment variable holding the
empty string is treated as unset — the repository's own edge-case tests
assert that an empty environment value does not override the default. -/
def viper_GetString_layered (env : List (String × String))
    (pfx viperKey : String) (b : ConfigBinding) : String :=
  if b.flagChanged then b.flagValue
  else
    match lookupEnv env (envVarName pfx viperKey) with
    | some s => if s ≠ "" then s else b.defaultValue
    | none => b.defaultValue

/-- `StringFlag.GetString` observed after `CobraOnInitialize` and
command execution: the one-shot bind of the effective key has happened,
and the getter returns what the configuration source reports for
`getViperKey`. -/
def StringFlag_GetString_value (env : List (String × String))
    (pfx viperKeyField name : String) (b : ConfigBinding) : String :=
  viper_GetString_layered env pfx
    (getViperKey viperKeyField name) b

/-! ## The initialization tree walk (`PostInitCommands`,
`PresetRequiredFlags`)

The walk mutates pflag handles (usage strings, env pre-seeding) exactly
once each, guarded by the `visited` set shared across the whole
recursion.  A handle is embedded by an identity `FlagId`; its
registration-time data (`Name`, the viper-key metadata) is a fixed
environment, and the walk's mutable effects (the visited set, the usage
strings, how often the env pre-seed `Set` ran) are explicit state. -/

/-- Identity of a pflag handle during the tree walk. -/
abbrev FlagId := Nat

/-- Registration-time data of a pflag handle: its `Name` and the
`viper-key` metadata left by `Register` (absent when the flag was
added outside this layer). -/
structure PFlagInfo where
  name : String
  ann : Option String

/-- The `noEnvFlags` exclusion set (src/cobrainit.go): only `"help"`. -/
def isNoEnvFlag (name : String) : Bool :=
  name = "help"

/-- Recovery of the effective key inside the walk: the first `viper-key`
metadata entry if present, else the raw flag name. -/
def annotatedViperKey (info : PFlagInfo) : String :=
  match info.ann with
  | some k => k
  | none => info.name

/-- Mutable state of one initialization run: the shared visited set, the
current usage string of each handle, and how many times the env
pre-seed `cmd.Flags().Set` has run for each handle. -/
structure WalkState where
  visited : List FlagId
  usage : FlagId → String
  presetCount : FlagId → Nat

/-- The per-flag body of `PresetRequiredFlags`'s `VisitAll` closure:
skip already-visited handles, mark visited, skip the `noEnvFlags`
exclusion, recover the effective key from the handle metadata, append
the `" [env: <name>]"` hint to the usage string, and when the
configuration source already reports a non-empty value for the key
(`envReady`), push it into the flag (counted, not stored). -/
def visitFlag (pfx : String) (info : FlagId → PFlagInfo)
    (envReady : String → Bool) (st : WalkState) (f : FlagId) : WalkState :=
  if f ∈ st.visited then st
  else if isNoEnvFlag (info f).name then
    { st with visited := f :: st.visited }
  else if envReady (annotatedViperKey (info f)) then
    { visited := f :: st.visited,
      usage := fun x =>
        if x = f then
          st.usage f ++ " [env: " ++
            envVarName pfx (annotatedViperKey (info f)) ++ "]"
        else st.usage x,
      presetCount := fun x =>
        if x = f then st.presetCount f + 1 else st.presetCount x }
  else
    { visited := f :: st.visited,
      usage := fun x =>
        if x = f then
          st.usage f ++ " [env: " ++
            envVarName pfx (annotatedViperKey (info f)) ++ "]"
        else st.usage x,
      presetCount := st.presetCount }

/-- Embedding of `PresetRequiredFlags` on one command: visit every
handle of the command's flag set in order.  (The command-level
`viper.BindPFlags` bulk bind has its error discarded and no effect on
this state.) -/
def presetRequiredFlags (pfx : String) (info : FlagId → PFlagInfo)
    (envReady : String → Bool) (st : WalkState) (cmdFlags : List FlagId) :
    WalkState :=
  cmdFlags.foldl (visitFlag pfx info envReady) st

mutual
/-- A cobra command node: its flag set (as handle identities — an
inherited persistent flag surfaces the same handle in several nodes) and
its subcommands. -/
inductive CmdTree where
  | node (flags : List FlagId) (children : CmdForest)

/-- A slice of cobra commands (`cmd.Commands()`). -/
inductive CmdForest where
  | nil
  | cons (t : CmdTree) (rest : CmdForest)
end

mutual
/-- Embedding of the per-command step of `PostInitCommands`: run
`PresetRequiredFlags` on the node, then recurse into its subcommands. -/
def postInitCmd (pfx : String) (info : FlagId → PFlagInfo)
    (envReady : String → Bool) (t : CmdTree) (st : WalkState) : WalkState :=
  match t with
  | .node fs cs =>
    postInitCmds pfx info envReady cs
      (presetRequiredFlags pfx info envReady st fs)

/-- Embedding of `PostInitCommands` over a slice of commands: process
them left to right. -/
def postInitCmds (pfx : String) (info : FlagId → PFlagInfo)
    (envReady : String → Bool) (ts : CmdForest) (st : WalkState) :
    WalkState :=
  match ts with
  | .nil => st
  | .cons t rest =>
    postInitCmds pfx info envReady rest
      (postInitCmd pfx info envReady t st)
end

mutual
/-- All flag handles reachable in a command subtree, in visit order. -/
def treeFlags : CmdTree → List FlagId
  | .node fs cs => fs ++ forestFlags cs

/-- All flag handles reachable in a forest, in visit order. -/
def forestFlags : CmdForest → List FlagId
  | .nil => []
  | .cons t rest => treeFlags t ++ forestFlags rest
end

/-- The usage string a handle should carry after one walk: unchanged for
excluded flags, otherwise the original usage with the env hint appended
exactly once. -/
def processedUsage (pfx : String) (info : FlagId → PFlagInfo)
    (orig : FlagId → String) (f : FlagId) : String :=
  if isNoEnvFlag (info f).name then orig f
  else orig f ++ " [env: " ++
    envVarName pfx (annotatedViperKey (info f)) ++ "]"

/-- How many times the env pre-seed should have run for a handle after
one walk. -/
def processedPreset (info : FlagId → PFlagInfo)
    (envReady : String → Bool) (f : FlagId) : Nat :=
  if isNoEnvFlag (info f).name then 0
  else if envReady (annotatedViperKey (info f)) then 1 else 0

/-- Invariant of the walk: a visited handle carries exactly the
processed usage and preset count; an unvisited one is untouched. -/
def WalkInv (pfx : String) (info : FlagId → PFlagInfo)
    (envReady : String → Bool) (orig : FlagId → String)
    (st : WalkState) : Prop :=
  ∀ f : FlagId,
    (f ∈ st.visited →
      st.usage f = processedUsage pfx info orig f ∧
      st.presetCount f = processedPreset info envReady f) ∧
    (f ∉ st.visited →
      st.usage f = orig f ∧ st.presetCount f = 0)

/-- A two-node example tree: a root and one child that both surface the
same persistent flag handle `0`. -/
def exampleTree : CmdTree :=
  .node [0] (.cons (.node [0] .nil) .nil)

/-- Handle data for the example: one flag named `verbose`, no custom
key metadata. -/
def exampleInfo : FlagId → PFlagInfo :=
  fun _ => { name := "verbose", ann := none }

/-- Original usage strings for the example. -/
def exampleUsage : FlagId → String :=
  fun _ => "enable verbosity"

/-- Walk state before the example walk: nothing visited. -/
def exampleStart : WalkState :=
  { visited := [], usage := exampleUsage, presetCount := fun _ => 0 }

end Cobraflags

namespace Cobraflags

/-! ## Theorems -/

/-- C3: for every FlagSpec, the effective configuration key equals the
custom key `ViperKey` when that field is non-empty and the flag's `Name`
otherwise; the resolution is a pure function of the two fields, so it
returns the same result on every call. -/
theorem getViperKey_resolution (viperKey name : String) :
    (viperKey ≠ "" → getViperKey viperKey name = viperKey) ∧
    (viperKey = "" → getViperKey viperKey name = name) ∧
    getViperKey viperKey name = getViperKey viperKey name := by
  refine ⟨fun h => ?_, fun h => ?_, rfl⟩
  · simp [getViperKey, h]
  · simp [getViperKey, h]

/-- Witness for C3 at the source's documented example: `ViperKey =
"app.config.file"` wins over `Name = "config-file"`, and an empty
`ViperKey` falls back to the name. -/
theorem getViperKey_resolution_witness :
    getViperKey "app.config.file" "config-file" = "app.config.file" ∧
    getViperKey "" "config-file" = "config-file" := by
  constructor
  · exact (getViperKey_resolution "app.config.file" "config-file").1 (by decide)
  · exact (getViperKey_resolution "" "config-file").2.1 rfl

/-- Concatenating Go strings concatenates their character lists. -/
theorem string_data_append (s t : String) :
    (s ++ t).data = s.data ++ t.data := by
  cases s
  cases t
  rfl

/-- Replacing `'.'` by `'_'` and then `'-'` by `'_'` (the source's two
sequential `strings.ReplaceAll` passes) acts on each character like the
specification's single simultaneous replacement of both characters. -/
theorem replace_dot_then_dash (c : Char) :
    (if (if c = '.' then '_' else c) = '-' then '_'
      else if c = '.' then '_' else c) =
    (if c = '.' ∨ c = '-' then '_' else c) := by
  by_cases hdot : c = '.'
  · simp [hdot]
  · by_cases hdash : c = '-'
    · simp [hdot, hdash]
    · simp [hdot, hdash]

/-- C4: the environment-variable name derived during the initialization
tree walk equals the upper-casing of `P ++ "_" ++ K` after every `'.'`
and every `'-'` in `K` has been replaced by `'_'`; in particular prefix
`"MYAPP"` with key `"app.config.file"` yields
`"MYAPP_APP_CONFIG_FILE"`. -/
theorem envVarName_spec (p k : String) :
    envVarName p k = specEnvVarName p k ∧
    envVarName "MYAPP" "app.config.file" = "MYAPP_APP_CONFIG_FILE" := by
  constructor
  · unfold envVarName specEnvVarName goReplaceAllChar goToUpper
    congr 2
    rw [string_data_append, string_data_append,
      string_data_append, string_data_append]
    congr 1
    show (k.data.map _).map _ = _
    rw [List.map_map]
    exact List.map_congr_left (fun c _ => replace_dot_then_dash c)
  · rfl

/-- C1 counterexample: the claim says a wide (uint16) value exceeding
255 yields 255 from `GetUint8`.  At the deposited wide value 300 the
code returns `cast.ToUint8 300 = 300 mod 256 = 44`, not 255, and
`GetUint8E` (no validation hooks configured) returns `(44, nil)`. -/
theorem uint8_saturation_counterexample :
    Uint8Flag_GetUint8 300 = 44 ∧
    Uint8Flag_GetUint8 300 ≠ 255 ∧
    Uint8Flag_GetUint8E ⟨none, none⟩ 300 = (44, none) := by
  refine ⟨rfl, by decide, rfl⟩

/-- C1 amended: for every value deposited into the flag's underlying
wide (uint16) representation that exceeds 255, `GetUint8` and
`GetUint8E` return the value reduced modulo 256 (Go integer-conversion
truncation / wraparound), not an error and not a saturated 255. -/
theorem uint8_truncation (wide : Nat) (hw : wide < 2 ^ 16)
    (hv : 255 < wide) :
    Uint8Flag_GetUint8 wide = wide % 2 ^ 8 ∧
    Uint8Flag_GetUint8E ⟨none, none⟩ wide = (wide % 2 ^ 8, none) := by
  exact ⟨rfl, rfl⟩

/-- Witness for C1's amended theorem at the wide value 300 (a valid
uint16 exceeding 255): both getters deliver `300 mod 256 = 44`, with no
error from `GetUint8E`. -/
theorem uint8_truncation_witness :
    Uint8Flag_GetUint8 300 = 300 % 2 ^ 8 ∧
    Uint8Flag_GetUint8E ⟨none, none⟩ 300 = (300 % 2 ^ 8, none) :=
  uint8_truncation 300 (by decide) (by decide)

/-- C2: the E-suffixed getters run `ValidateFunc` first when set; on its
error the `Validator` is not consulted and the error is returned with
the zero value; when `ValidateFunc` passes or is absent and `Validator`
is set, `Validator` also runs and its error is likewise returned with
the zero value; when nothing fails the retrieved value is returned with
`nil`.  The plain getters run no validation at all (their result is the
raw configuration value, whatever the hooks are). -/
theorem getE_validation_order {T : Type} (zero v : T)
    (f g : T → Option Err) :
    (∀ e, f v = some e →
      getE zero ⟨some f, some g⟩ v = (zero, some e) ∧
      validatorConsulted ⟨some f, some g⟩ v = false) ∧
    (f v = none → ∀ e, g v = some e →
      getE zero ⟨some f, some g⟩ v = (zero, some e) ∧
      validatorConsulted ⟨some f, some g⟩ v = true) ∧
    (∀ e, g v = some e → getE zero ⟨none, some g⟩ v = (zero, some e)) ∧
    (f v = none → g v = none → getE zero ⟨some f, some g⟩ v = (v, none)) ∧
    getE zero ⟨none, none⟩ v = (v, none) ∧
    (∀ cfg : FlagCfg T, getPlain cfg v = v) := by
  refine ⟨fun e he => ?_, fun hf e he => ?_, fun e he => ?_,
    fun hf hg => ?_, rfl, fun _ => rfl⟩
  · constructor
    · simp [getE, validate, he]
    · simp [validatorConsulted, he]
  · constructor
    · simp [getE, validate, runValidator, hf, he]
    · simp [validatorConsulted, hf]
  · simp [getE, validate, runValidator, he]
  · simp [getE, validate, runValidator, hf, hg]

/-- Witness for C2 at concrete hooks over `T := Nat`: a failing
`ValidateFunc` wins and the `Validator` is not consulted; with a passing
`ValidateFunc` the failing `Validator`'s error surfaces with the zero
value; with no hooks the raw value comes back with `nil`. -/
theorem getE_validation_order_witness :
    (getE 0 ⟨some (fun _ : Nat => some "fn error"),
        some (fun _ => some "validator error")⟩ 5 = (0, some "fn error") ∧
      validatorConsulted ⟨some (fun _ : Nat => some "fn error"),
        some (fun _ => some "validator error")⟩ 5 = false) ∧
    getE 0 ⟨some (fun _ : Nat => none),
      some (fun _ => some "validator error")⟩ 5 = (0, some "validator error") ∧
    getE 0 (⟨none, none⟩ : FlagCfg Nat) 5 = (5, none) := by
  refine ⟨(getE_validation_order 0 5 _ _).1 "fn error" rfl,
    ((getE_validation_order 0 5 (fun _ => none) _).2.1 rfl
      "validator error" rfl).1,
    (getE_validation_order 0 5 (fun _ => none)
      (fun _ => none)).2.2.2.2.1⟩

/-- Once the bind latch has fired, further getter calls leave the latch
state (and in particular the bind counter) untouched. -/
theorem getterSeq_of_bound (ks : List Bool) (n : Nat) :
    getterSeq ks ⟨true, n⟩ = ⟨true, n⟩ := by
  induction ks with
  | nil => rfl
  | cons k ks ih =>
    show getterSeq ks (getterBindStep k ⟨true, n⟩) = _
    simpa [getterBindStep, bindOnceDo] using ih

/-- C5: calling a FlagSpec's getters (plain or E-suffixed, in any
combination) N ≥ 1 times executes the underlying `viper.BindPFlag` bind
exactly once, and the `bindOnce` latch transitions unbound→bound at most
once: after it is bound, a further `Do` is the identity. -/
theorem bindOnce_exactly_once (ks : List Bool) (hne : ks ≠ []) :
    (getterSeq ks ⟨false, 0⟩).bindCount = 1 ∧
    (getterSeq ks ⟨false, 0⟩).bound = true ∧
    (∀ st : BindState, st.bound = true → bindOnceDo st = st) := by
  refine ⟨?_, ?_, fun st h => by simp [bindOnceDo, h]⟩
  · match ks, hne with
    | k :: ks, _ =>
      show (getterSeq ks (getterBindStep k ⟨false, 0⟩)).bindCount = 1
      have : getterBindStep k ⟨false, 0⟩ = ⟨true, 1⟩ := by
        simp [getterBindStep, bindOnceDo]
      rw [this, getterSeq_of_bound]
  · match ks, hne with
    | k :: ks, _ =>
      show (getterSeq ks (getterBindStep k ⟨false, 0⟩)).bound = true
      have : getterBindStep k ⟨false, 0⟩ = ⟨true, 1⟩ := by
        simp [getterBindStep, bindOnceDo]
      rw [this, getterSeq_of_bound]

/-- Witness for C5: the sequence plain getter, E-getter, plain getter
(N = 3) binds exactly once. -/
theorem bindOnce_exactly_once_witness :
    (getterSeq [false, true, false] ⟨false, 0⟩).bindCount = 1 ∧
    (getterSeq [false, true, false] ⟨false, 0⟩).bound = true :=
  ⟨(bindOnce_exactly_once [false, true, false] (by decide)).1,
    (bindOnce_exactly_once [false, true, false] (by decide)).2.1⟩

/-- C7: when the one-shot bind fails (nil handle: a getter ran before
`Register`), both getters panic with the bind error instead of returning
it; and whatever a getter does return through its normal channel never
carries the bind error — a non-nil error in `GetStringE`'s result always
comes from the validation hooks. -/
theorem bind_failure_panics (cfg : FlagCfg String) (st : StringFlagState)
    (key : String) (hb : st.bound = false) (hf : st.flag = none) :
    (StringFlag_GetString_run st key).1 =
      .panicked ("flag for " ++ key ++ " is nil") ∧
    (StringFlag_GetStringE_run cfg st key).1 =
      .panicked ("flag for " ++ key ++ " is nil") ∧
    (∀ st' : StringFlagState, ∀ s,
      (StringFlag_GetString_run st' key).1 = .ok s → s = st'.viperValue) ∧
    (∀ st' : StringFlagState, ∀ v e,
      (StringFlag_GetStringE_run cfg st' key).1 = .ok (v, some e) →
        validate "" cfg st'.viperValue = (v, some e)) := by
  refine ⟨?_, ?_, ?_, ?_⟩
  · simp [StringFlag_GetString_run, viper_BindPFlag, hb, hf]
  · simp [StringFlag_GetStringE_run, viper_BindPFlag, hb, hf]
  · intro st' s h
    by_cases hb' : st'.bound
    · simp [StringFlag_GetString_run, hb'] at h
      exact h.symm
    · rcases hfl : st'.flag with _ | hd
      · simp [StringFlag_GetString_run, viper_BindPFlag, hb', hfl] at h
      · simp [StringFlag_GetString_run, viper_BindPFlag, hb', hfl] at h
        exact h.symm
  · intro st' v e h
    have hok : getE "" cfg st'.viperValue = (v, some e) := by
      by_cases hb' : st'.bound
      · simpa [StringFlag_GetStringE_run, hb'] using h
      · rcases hfl : st'.flag with _ | hd
        · simp [StringFlag_GetStringE_run, viper_BindPFlag, hb', hfl] at h
        · simpa [StringFlag_GetStringE_run, viper_BindPFlag, hb', hfl]
            using h
    rcases hval : validate "" cfg st'.viperValue with ⟨r, er⟩
    cases er with
    | none => simp [getE, hval] at hok
    | some e' =>
      simp [getE, hval] at hok
      rw [hok.1, hok.2]

/-- Witness for C7: a `StringFlag` whose handle is still nil (getter
before `Register`) panics with the bind error on `GetString`. -/
theorem bind_failure_panics_witness :
    (StringFlag_GetString_run ⟨none, false, "x"⟩ "mykey").1 =
      .panicked ("flag for " ++ "mykey" ++ " is nil") :=
  (bind_failure_panics ⟨none, none⟩ ⟨none, false, "x"⟩ "mykey"
    rfl rfl).1

/-- After any sequence of trigger firings, a command's initialization
body has run once more than before exactly when its latch was fresh and
some firing targeted it; a latched command is never re-run. -/
theorem fireAll_runCount (l : List CmdId) (st : InitRegistry) (c : CmdId) :
    (fireAll l st).runCount c =
      if st.done c then st.runCount c
      else if c ∈ l then st.runCount c + 1 else st.runCount c := by
  induction l generalizing st with
  | nil => by_cases h : st.done c <;> simp [fireAll, h]
  | cons a l ih =>
    show (fireAll l (cobraInitFire a st)).runCount c = _
    rw [ih]
    by_cases hda : st.done a
    · by_cases hdc : st.done c <;>
        by_cases hca : c = a <;>
        simp_all [cobraInitFire]
    · by_cases hca : c = a
      · subst hca
        simp [cobraInitFire, hda]
      · by_cases hdc : st.done c <;> simp_all [cobraInitFire]

/-- C9: over any sequence of initialization triggers (help renders,
on-initialize hook firings, repeated `CobraOnInitialize` registrations),
each command's initialization body runs exactly once if it was ever
triggered and zero times otherwise — commands hold independent latches
in `initOnceMap`, and a fired latch makes further triggers no-ops. -/
theorem init_once_per_command (l : List CmdId) (c : CmdId) :
    (fireAll l freshRegistry).runCount c = (if c ∈ l then 1 else 0) ∧
    (∀ st : InitRegistry, st.done c = true → cobraInitFire c st = st) := by
  constructor
  · rw [fireAll_runCount]
    simp [freshRegistry]
  · intro st h
    simp [cobraInitFire, h]

/-- Witness for C9: firing the triggers for command 0 three times and
command 1 once initializes each of them exactly once and leaves an
untriggered command 2 untouched. -/
theorem init_once_per_command_witness :
    (fireAll [0, 0, 1, 0] freshRegistry).runCount 0 = 1 ∧
    (fireAll [0, 0, 1, 0] freshRegistry).runCount 1 = 1 ∧
    (fireAll [0, 0, 1, 0] freshRegistry).runCount 2 = 0 := by
  refine ⟨?_, ?_, ?_⟩
  · rw [(init_once_per_command [0, 0, 1, 0] 0).1]
    decide
  · rw [(init_once_per_command [0, 0, 1, 0] 1).1]
    decide
  · rw [(init_once_per_command [0, 0, 1, 0] 2).1]
    decide

/-- C10: `RegisterMap(cmd, m)` registers every flag of the map under the
flag's own `Name` and ignores the map keys entirely: its effect equals
`Register(cmd, values-of-m...)`, and rewriting every key (even to names
differing from the flags' `Name` fields) changes nothing. -/
theorem registerMap_ignores_keys (c : CmdState)
    (m : List (String × FlagSpec)) :
    registerMap c m = registerFlags c (m.map Prod.snd) ∧
    (∀ rekey : String × FlagSpec → String,
      registerMap c (m.map (fun kv => (rekey kv, kv.2))) =
        registerMap c m) := by
  constructor
  · rw [registerFlags, registerMap, List.foldl_map]
  · intro rekey
    rw [registerMap, registerMap, List.foldl_map]

/-- One `VisitAll` step preserves the walk invariant, never shrinks the
visited set, and leaves its flag visited. -/
theorem visitFlag_inv (p : String) (info : FlagId → PFlagInfo)
    (er : String → Bool) (orig : FlagId → String) (st : WalkState)
    (g : FlagId) (h : WalkInv p info er orig st) :
    WalkInv p info er orig (visitFlag p info er st g) ∧
    (∀ x, x ∈ st.visited → x ∈ (visitFlag p info er st g).visited) ∧
    g ∈ (visitFlag p info er st g).visited := by
  by_cases hg : g ∈ st.visited
  · simp only [visitFlag, if_pos hg]
    exact ⟨h, fun x hx => hx, hg⟩
  · have hug : st.usage g = orig g := ((h g).2 hg).1
    have hpg : st.presetCount g = 0 := ((h g).2 hg).2
    have hinv : WalkInv p info er orig (visitFlag p info er st g) := by
      intro f
      by_cases hfg : f = g
      · subst hfg
        constructor
        · intro _
          by_cases hh : isNoEnvFlag (info f).name
          · simp [visitFlag, hg, hh, processedUsage, processedPreset,
              hug, hpg]
          · by_cases he : er (annotatedViperKey (info f))
            · simp [visitFlag, hg, hh, he, processedUsage,
                processedPreset, hug, hpg]
            · simp [visitFlag, hg, hh, he, processedUsage,
                processedPreset, hug, hpg]
        · intro hnot
          exfalso
          apply hnot
          by_cases hh : isNoEnvFlag (info f).name
          · simp [visitFlag, hg, hh]
          · by_cases he : er (annotatedViperKey (info f)) <;>
              simp [visitFlag, hg, hh, he]
      · have husef : (visitFlag p info er st g).usage f = st.usage f := by
          by_cases hh : isNoEnvFlag (info g).name
          · simp [visitFlag, hg, hh]
          · by_cases he : er (annotatedViperKey (info g)) <;>
              simp [visitFlag, hg, hh, he, hfg]
        have hpref : (visitFlag p info er st g).presetCount f =
            st.presetCount f := by
          by_cases hh : isNoEnvFlag (info g).name
          · simp [visitFlag, hg, hh]
          · by_cases he : er (annotatedViperKey (info g)) <;>
              simp [visitFlag, hg, hh, he, hfg]
        have hvisf : (f ∈ (visitFlag p info er st g).visited) ↔
            f ∈ st.visited := by
          by_cases hh : isNoEnvFlag (info g).name
          · simp [visitFlag, hg, hh, hfg]
          · by_cases he : er (annotatedViperKey (info g)) <;>
              simp [visitFlag, hg, hh, he, hfg]
        constructor
        · intro hmem
          rw [husef, hpref]
          exact (h f).1 (hvisf.mp hmem)
        · intro hmem
          rw [husef, hpref]
          exact (h f).2 (fun hc => hmem (hvisf.mpr hc))
    refine ⟨hinv, ?_, ?_⟩
    · intro x hx
      by_cases hh : isNoEnvFlag (info g).name
      · simp [visitFlag, hg, hh]
        exact Or.inr hx
      · by_cases he : er (annotatedViperKey (info g)) <;>
          · simp [visitFlag, hg, hh, he]
            exact Or.inr hx
    · by_cases hh : isNoEnvFlag (info g).name
      · simp [visitFlag, hg, hh]
      · by_cases he : er (annotatedViperKey (info g)) <;>
          simp [visitFlag, hg, hh, he]

/-- `PresetRequiredFlags` on one command preserves the walk invariant,
never shrinks the visited set, and leaves every flag of the command
visited. -/
theorem presetRequiredFlags_inv (p : String) (info : FlagId → PFlagInfo)
    (er : String → Bool) (orig : FlagId → String) (fs : List FlagId)
    (st : WalkState) (h : WalkInv p info er orig st) :
    WalkInv p info er orig (presetRequiredFlags p info er st fs) ∧
    (∀ x, x ∈ st.visited →
      x ∈ (presetRequiredFlags p info er st fs).visited) ∧
    (∀ x, x ∈ fs → x ∈ (presetRequiredFlags p info er st fs).visited) := by
  induction fs generalizing st with
  | nil =>
    refine ⟨h, fun x hx => hx, ?_⟩
    intro x hx
    simp at hx
  | cons a fs ih =>
    have hstep := visitFlag_inv p info er orig st a h
    have hrest := ih (visitFlag p info er st a) hstep.1
    have hunf : presetRequiredFlags p info er st (a :: fs) =
        presetRequiredFlags p info er (visitFlag p info er st a) fs := by
      simp [presetRequiredFlags]
    rw [hunf]
    refine ⟨hrest.1, ?_, ?_⟩
    · intro x hx
      exact hrest.2.1 x (hstep.2.1 x hx)
    · intro x hx
      rcases List.mem_cons.mp hx with rfl | hx'
      · exact hrest.2.1 x hstep.2.2
      · exact hrest.2.2 x hx'

mutual
/-- The per-command walk step preserves the invariant, never shrinks the
visited set, and leaves every flag of the subtree visited. -/
theorem postInitCmd_inv (p : String) (info : FlagId → PFlagInfo)
    (er : String → Bool) (orig : FlagId → String) (t : CmdTree)
    (st : WalkState) (h : WalkInv p info er orig st) :
    WalkInv p info er orig (postInitCmd p info er t st) ∧
    (∀ x, x ∈ st.visited → x ∈ (postInitCmd p info er t st).visited) ∧
    (∀ x, x ∈ treeFlags t → x ∈ (postInitCmd p info er t st).visited) := by
  match t with
  | .node fs cs =>
    have hfs := presetRequiredFlags_inv p info er orig fs st h
    have hcs := postInitCmds_inv p info er orig cs
      (presetRequiredFlags p info er st fs) hfs.1
    have hunf : postInitCmd p info er (.node fs cs) st =
        postInitCmds p info er cs (presetRequiredFlags p info er st fs) :=
      rfl
    rw [hunf]
    refine ⟨hcs.1, ?_, ?_⟩
    · intro x hx
      exact hcs.2.1 x (hfs.2.1 x hx)
    · intro x hx
      have : x ∈ fs ++ forestFlags cs := by
        simpa [treeFlags] using hx
      rcases List.mem_append.mp this with hx' | hx'
      · exact hcs.2.1 x (hfs.2.2 x hx')
      · exact hcs.2.2 x hx'

/-- The walk over a slice of commands preserves the invariant, never
shrinks the visited set, and leaves every flag of the forest visited. -/
theorem postInitCmds_inv (p : String) (info : FlagId → PFlagInfo)
    (er : String → Bool) (orig : FlagId → String) (ts : CmdForest)
    (st : WalkState) (h : WalkInv p info er orig st) :
    WalkInv p info er orig (postInitCmds p info er ts st) ∧
    (∀ x, x ∈ st.visited → x ∈ (postInitCmds p info er ts st).visited) ∧
    (∀ x, x ∈ forestFlags ts →
      x ∈ (postInitCmds p info er ts st).visited) := by
  match ts with
  | .nil =>
    refine ⟨h, fun x hx => hx, ?_⟩
    intro x hx
    simp [forestFlags] at hx
  | .cons t rest =>
    have ht := postInitCmd_inv p info er orig t st h
    have hrest := postInitCmds_inv p info er orig rest
      (postInitCmd p info er t st) ht.1
    have hunf : postInitCmds p info er (.cons t rest) st =
        postInitCmds p info er rest (postInitCmd p info er t st) := rfl
    rw [hunf]
    refine ⟨hrest.1, ?_, ?_⟩
    · intro x hx
      exact hrest.2.1 x (ht.2.1 x hx)
    · intro x hx
      have : x ∈ treeFlags t ++ forestFlags rest := by
        simpa [forestFlags] using hx
      rcases List.mem_append.mp this with hx' | hx'
      · exact hrest.2.1 x (ht.2.2 x hx')
      · exact hrest.2.2 x hx'
end

/-- C6: during one initialization tree walk started on a fresh visited
set, every reachable flag handle (outside the `help` exclusion) has its
usage string annotated with the env hint exactly once — the original
usage with a single appended hint, even when the handle is reachable
from several command nodes — and its env pre-seed runs exactly once
(when the configuration source reports a value) or not at all. -/
theorem tree_walk_annotates_once (p : String) (info : FlagId → PFlagInfo)
    (er : String → Bool) (orig : FlagId → String) (t : CmdTree)
    (f : FlagId) (hf : f ∈ treeFlags t)
    (hx : isNoEnvFlag (info f).name = false) :
    (postInitCmd p info er t ⟨[], orig, fun _ => 0⟩).usage f =
      orig f ++ " [env: " ++
        envVarName p (annotatedViperKey (info f)) ++ "]" ∧
    (postInitCmd p info er t ⟨[], orig, fun _ => 0⟩).presetCount f =
      (if er (annotatedViperKey (info f)) then 1 else 0) := by
  have h0 : WalkInv p info er orig ⟨[], orig, fun _ => 0⟩ := by
    intro g
    constructor
    · intro hmem
      simp at hmem
    · intro _
      exact ⟨rfl, rfl⟩
  have hw := postInitCmd_inv p info er orig t ⟨[], orig, fun _ => 0⟩ h0
  have hprocessed := (hw.1 f).1 (hw.2.2 f hf)
  refine ⟨?_, ?_⟩
  · rw [hprocessed.1]
    simp [processedUsage, hx]
  · rw [hprocessed.2]
    simp [processedPreset, hx]

/-- Witness for C6: in the example tree the persistent flag handle `0`
is visible in both the root and the child command, yet its usage string
receives the hint once, never double-appended. -/
theorem tree_walk_annotates_once_witness :
    (postInitCmd "APP" exampleInfo (fun _ => false) exampleTree
        exampleStart).usage 0 = "enable verbosity [env: APP_VERBOSE]" ∧
    (postInitCmd "APP" exampleInfo (fun _ => false) exampleTree
        exampleStart).presetCount 0 = 0 := by
  have hmem : (0 : FlagId) ∈ treeFlags exampleTree := by
    simp [treeFlags, forestFlags, exampleTree]
  have h := tree_walk_annotates_once "APP" exampleInfo (fun _ => false)
    exampleUsage exampleTree 0 hmem rfl
  exact ⟨h.1.trans (by decide), h.2.trans (by decide)⟩

/-- C8 counterexample: the environment variable named by the bit-exact
contract is set — but to the empty string — and the flag is never
passed on the command line; the getter returns the default, not the
environment-derived (empty) value, because the configuration source
treats an empty environment value as unset. -/
theorem env_precedence_counterexample :
    StringFlag_GetString_value [("APP_NAME", "")] "APP" "" "name"
      ⟨false, "", "default"⟩ = "default" ∧
    lookupEnv [("APP_NAME", "")] (envVarName "APP" (getViperKey "" "name")) =
      some "" ∧
    ("default" : String) ≠ "" := by
  refine ⟨by decide, by decide, by decide⟩

/-- C8 amended: after initialization, when the environment variable
named per the bit-exact contract holds a NON-EMPTY value and the flag is
never passed on the command line, the plain getter returns that
environment-derived value rather than the default; when the flag is also
supplied on the command line, the command-line value wins.  (An empty
environment value is treated as unset and leaves the default.) -/
theorem env_precedence (env : List (String × String))
    (p vk name : String) (b : ConfigBinding) (s : String)
    (henv : lookupEnv env (envVarName p (getViperKey vk name)) = some s)
    (hs : s ≠ "") :
    (b.flagChanged = false →
      StringFlag_GetString_value env p vk name b = s) ∧
    (b.flagChanged = true →
      StringFlag_GetString_value env p vk name b = b.flagValue) := by
  constructor
  · intro hb
    simp [StringFlag_GetString_value, viper_GetString_layered, hb,
      henv, hs]
  · intro hb
    simp [StringFlag_GetString_value, viper_GetString_layered, hb]

/-- Witness for C8 at the spec's concrete scenario: flag `port`, prefix
`APP`, env `APP_PORT=9090` — the getter delivers `9090`, not the default
`8080`; adding `--port 7070` on the command line delivers `7070`. -/
theorem env_precedence_witness :
    StringFlag_GetString_value [("APP_PORT", "9090")] "APP" "" "port"
      ⟨false, "", "8080"⟩ = "9090" ∧
    StringFlag_GetString_value [("APP_PORT", "9090")] "APP" "" "port"
      ⟨true, "7070", "8080"⟩ = "7070" := by
  constructor
  · exact (env_precedence [("APP_PORT", "9090")] "APP" "" "port"
      ⟨false, "", "8080"⟩ "9090" (by decide) (by decide)).1 rfl
  · exact (env_precedence [("APP_PORT", "9090")] "APP" "" "port"
      ⟨true, "7070", "8080"⟩ "9090" (by decide) (by decide)).2 rfl

end Cobraflags
